import Mathlib

/-!
Verification development for the `congressional_mcp` repository.

The Python sources (`config.py`, `http_client.py`, `resource_service.py`,
`mcp_tools.py`, `congress_api_mcp.py`) are shallowly embedded below.  Pure
functions become Lean functions; the mutable `RateLimitInfo` record is passed
and returned explicitly; the network is an oracle argument (`NetOutcome`)
describing what `requests.Session.get` does for a call; Python exceptions
become `Except` values.  Definitions keep the source names where Lean allows.
-/

namespace CongressMcp

/-- Python scalar values as they occur in query-parameter dictionaries:
strings and non-negative integers (the only kinds the repository passes). -/
inductive Val where
  | str (s : String)
  | nat (n : Nat)
deriving DecidableEq

/-- Rendering of a value inside an f-string, as in `f"{key}={value}"`. -/
def Val.render : Val → String
  | .str s => s
  | .nat n => toString n

/-- A Python dict with string keys, modelled as an insertion-ordered
association list.  A value of `none` models Python `None`. -/
abbrev Dict := List (String × Option Val)

/-- Python `d[k] = v`: overwrite in place (keeping the key's position) when
the key exists, append otherwise. -/
def dictSet (d : Dict) (k : String) (v : Option Val) : Dict :=
  if (d.find? (fun p => p.1 = k)).isSome then
    d.map (fun p => if p.1 = k then (k, v) else p)
  else
    d ++ [(k, v)]

/-- Python `d.get(k)`: `some w` when the key is present with value `w`
(`w = none` models a present key bound to `None`). -/
def dictFind (d : Dict) (k : String) : Option (Option Val) :=
  (d.find? (fun p => p.1 = k)).map (fun p => p.2)

/-! ## `config.py` -/

/-- Embedding of `Config`: the API key is resolved from the environment or a secrets file;
we model it as an already-resolved string (the spec treats it as such). -/
structure Config where
  api_key : String
deriving DecidableEq

def Config.base_url (_ : Config) : String := "https://api.congress.gov/v3"

def Config.rate_limit_per_hour (_ : Config) : Nat := 5000

def Config.default_format (_ : Config) : String := "json"

def Config.default_limit (_ : Config) : Nat := 20

/-! ## `http_client.py` -/

/-- The `RateLimitInfo` dataclass.  Time is modelled in whole seconds as `Nat`. -/
structure RateLimitInfo where
  requests_this_hour : Nat
  hour_start_time : Nat
  is_rate_limited : Bool
deriving DecidableEq

/-- What `self.session.get(url, timeout=30)` does for one call:
either it returns a response (with a status code and, if the body is valid
JSON, the parsed payload of type `α`), or it raises a
`requests.exceptions.RequestException` (timeout, connection error, DNS). -/
inductive NetOutcome (α : Type) where
  | response (status : Nat) (body : Option α)
  | transportError (msg : String)
deriving DecidableEq

/-- The exceptions `HttpClient.get` can raise, by provenance:
`rateLimitLocal` is the pre-check `Exception` carrying count and quota;
`rateLimitServer` is the `Exception("API rate limit exceeded")` on the
(dead) 429 branch; `requestFailed` is the
`Exception(f"API request failed: ...")` wrapper of the except-clause. -/
inductive GetError where
  | rateLimitLocal (count quota : Nat)
  | rateLimitServer
  | requestFailed (msg : String)
deriving DecidableEq

/-- The window-rollover step of `HttpClient._check_rate_limit`: reset the
counter and advance the window start once an hour has passed. -/
def rollover (now : Nat) (st : RateLimitInfo) : RateLimitInfo :=
  if 3600 ≤ now - st.hour_start_time then
    { requests_this_hour := 0, hour_start_time := now, is_rate_limited := false }
  else st

/-- Embedding of `HttpClient._check_rate_limit`: window rollover then quota pre-check.
Returns the updated state and `some e` when it raises. -/
def check_rate_limit (cfg : Config) (now : Nat) (st : RateLimitInfo) :
    RateLimitInfo × Option GetError :=
  if cfg.rate_limit_per_hour ≤ (rollover now st).requests_this_hour then
    ({ rollover now st with is_rate_limited := true },
      some (.rateLimitLocal (rollover now st).requests_this_hour cfg.rate_limit_per_hour))
  else
    (rollover now st, none)

/-- The final parameter dict of `HttpClient._build_url`: the two mandatory
assignments `params['api_key'] = ...` and `params['format'] = ...`. -/
def final_params (cfg : Config) (d : Dict) : Dict :=
  dictSet (dictSet d "api_key" (some (.str cfg.api_key)))
    "format" (some (.str cfg.default_format))

/-- The pairs that survive the `if value is not None` filter in
`HttpClient._build_url`'s query-string loop. -/
def query_pairs (d : Dict) : Dict :=
  d.filter (fun p => p.2.isSome)

/-- The rendered `f"{key}={value}"` parts of the query string. -/
def query_parts (d : Dict) : List String :=
  (query_pairs d).map (fun p => p.1 ++ "=" ++ (p.2.getD (.str "")).render)

/-- Embedding of `HttpClient._build_url`.  The first component is the returned URL.  The
second models the function's side effect: `params['api_key']`/`params['format']`
mutate the caller's dict in place, so when the caller passed a dict the
caller afterwards observes `final_params` of it; when the caller passed
`None` a fresh local `{}` is used and the caller observes nothing. -/
def build_url (cfg : Config) (endpoint : String) (params : Option Dict) :
    String × Option Dict :=
  let url := cfg.base_url ++ "/" ++ endpoint
  let d := final_params cfg (params.getD [])
  let url :=
    if d ≠ [] then
      let qp := query_parts d
      if qp ≠ [] then url ++ "?" ++ String.intercalate "&" qp else url
    else url
  (url, params.map (fun _ => d))

/-- Result of one `HttpClient.get` call: the rate-limit state afterwards,
whether `session.get` was invoked at all, and the returned JSON payload or
the raised exception. -/
structure GetResult (α : Type) where
  state : RateLimitInfo
  requestMade : Bool
  result : Except GetError α

/-- Embedding of `HttpClient.get`, translated line by line.  Note the source order: the
counter increment sits *after* `session.get` returns (so a transport error
skips it), `raise_for_status()` runs *before* the `status_code == 429`
check, and the except-clause catches every `RequestException`. -/
def get (cfg : Config) (now : Nat) (st : RateLimitInfo) (endpoint : String)
    (params : Option Dict) (outcome : NetOutcome α) : GetResult α :=
  match check_rate_limit cfg now st with
  | (st₁, some e) => ⟨st₁, false, .error e⟩
  | (st₁, none) =>
    let _url := (build_url cfg endpoint params).1
    match outcome with
    | .transportError msg =>
      ⟨st₁, true, .error (.requestFailed ("API request failed: " ++ msg))⟩
    | .response status body =>
      let st₂ := { st₁ with requests_this_hour := st₁.requests_this_hour + 1 }
      if 400 ≤ status ∧ status < 600 then
        ⟨st₂, true, .error (.requestFailed ("API request failed: HTTP " ++ toString status))⟩
      else if status = 429 then
        ⟨{ st₂ with is_rate_limited := true }, true, .error .rateLimitServer⟩
      else
        match body with
        | some a => ⟨st₂, true, .ok a⟩
        | none => ⟨st₂, true, .error (.requestFailed "API request failed: invalid JSON body")⟩

/-- The view `HttpClient.get_paginated` has of one page: `data` is `some xs` iff
the endpoint's data key (`_get_data_key(endpoint)`) is present in the
response, with `xs` the array under it; `pagination` is `some c` iff a
`'pagination'` envelope is present, with `c = pagination.get('count', 0)`. -/
structure PageResponse (α : Type) where
  data : Option (List α)
  pagination : Option Nat
deriving DecidableEq

/-- How `HttpClient.get_paginated` ends: a combined-results return, a
verbatim single-item return (data key absent), an exception propagating out
of the inner `get`, or the unhandled `ZeroDivisionError` raised by
`len(all_results) // limit` when `limit == 0`. -/
inductive PagOutcome (α : Type) where
  | combined (results : List α)
  | single (resp : PageResponse α)
  | raised (e : GetError)
  | zeroDiv
deriving DecidableEq

/-- Result of `get_paginated`: how many times `get` was called, the final
rate-limit state, and how the loop ended. -/
structure PagResult (α : Type) where
  fetches : Nat
  state : RateLimitInfo
  out : PagOutcome α

/-- The `while True` loop of `HttpClient.get_paginated`, with explicit fuel
(`none` = fuel ran out before the loop ended).  `oracle k` gives the clock
time and the network behaviour of the `k`-th call to `get` (0-based);
`offset`, `acc` (the `all_results` list) and `k` thread through the loop. -/
def get_paginated_loop (cfg : Config) (endpoint : String) (params : Dict)
    (max_pages limit : Nat) (oracle : Nat → Nat × NetOutcome (PageResponse α)) :
    Nat → Nat → List α → Nat → RateLimitInfo → Option (PagResult α)
  | 0, _, _, _, _ => none
  | fuel + 1, offset, acc, k, st =>
    let (now, outcome) := oracle k
    let current_params := dictSet (dictSet params "offset" (some (.nat offset)))
      "limit" (some (.nat limit))
    let r := get cfg now st endpoint (some current_params) outcome
    match r.result with
    | .error e => some ⟨k + 1, r.state, .raised e⟩
    | .ok resp =>
      match resp.data with
      | some page_results =>
        let acc := acc ++ page_results
        match resp.pagination with
        | some count =>
          if offset + limit ≥ count then some ⟨k + 1, r.state, .combined acc⟩
          else if limit = 0 then some ⟨k + 1, r.state, .zeroDiv⟩
          else if acc.length / limit ≥ max_pages then some ⟨k + 1, r.state, .combined acc⟩
          else get_paginated_loop cfg endpoint params max_pages limit oracle
            fuel (offset + limit) acc (k + 1) r.state
        | none => some ⟨k + 1, r.state, .combined acc⟩
      | none => some ⟨k + 1, r.state, .single resp⟩

/-- The assignment `limit = params.get('limit', self.config.default_limit)`.  The repository
only ever stores integers under `'limit'`; a present non-integer (or `None`)
value would make the later `offset + limit` arithmetic fail in Python and is
left unmodelled (`none`). -/
def effective_limit (cfg : Config) (params : Dict) : Option Nat :=
  match dictFind params "limit" with
  | none => some cfg.default_limit
  | some (some (.nat n)) => some n
  | some _ => none

/-- Embedding of `HttpClient.get_paginated` (the combined-results construction
`{result_key: all_results}` is represented by the `PagOutcome.combined`
constructor; the substring choice of the key does not affect the loop). -/
def get_paginated (cfg : Config) (endpoint : String) (params : Option Dict)
    (max_pages : Nat) (oracle : Nat → Nat × NetOutcome (PageResponse α))
    (st : RateLimitInfo) (fuel : Nat) : Option (PagResult α) :=
  let params := params.getD []
  match effective_limit cfg params with
  | some limit => get_paginated_loop cfg endpoint params max_pages limit oracle fuel 0 [] 0 st
  | none => none

/-! ## `resource_service.py` -/

/-- Remove every leading and every trailing occurrence of `c`. -/
def stripAux (c : Char) (l : List Char) : List Char :=
  ((l.dropWhile (· = c)).reverse.dropWhile (· = c)).reverse

/-- Python `str.strip("/")`: remove every leading and trailing `'/'`. -/
def pyStripChar (c : Char) (s : String) : String :=
  ⟨stripAux c s.data⟩

/-- The normalization loop inside `GenericResourceService._build_endpoint`:
skip `None` entries, stringify (the identity on the strings we model),
strip `'/'` from both ends, and drop segments that became empty. -/
def normalize_path_segments (xs : List (Option String)) : List String :=
  xs.filterMap (fun s =>
    match s with
    | none => none
    | some v =>
      let value := pyStripChar '/' v
      if value = "" then none else some value)

/-- Embedding of `GenericResourceService._build_endpoint`: base path, then the normalized
segments, then the non-empty parts of `subresource.split("/")` (guarded by
the truthiness test `if subresource:`), joined with `"/"`. -/
def build_endpoint (basePath : String) (path_segments : List (Option String))
    (subresource : Option String) : String :=
  let segments := basePath :: normalize_path_segments path_segments
  let segments := segments ++
    (match subresource with
     | some sub => if sub ≠ "" then (sub.splitOn "/").filter (fun part => part ≠ "") else []
     | none => [])
  String.intercalate "/" segments

/-- Embedding of `GenericResourceService._prepare_query`: `None`/empty params become
`None`; otherwise drop `None`-valued keys and return `None` if nothing is
left (`return query or None`). -/
def prepare_query (params : Option Dict) : Option Dict :=
  match params with
  | none => none
  | some d =>
    if d = [] then none
    else
      let query := d.filter (fun p => p.2.isSome)
      if query = [] then none else some query

/-- Embedding of `GenericResourceService.get_resource`: build the endpoint from the
segments (no emptiness check appears in the source) and call
`HttpClient.get`. -/
def get_resource (cfg : Config) (now : Nat) (st : RateLimitInfo)
    (basePath : String) (path_segments : List (Option String))
    (params : Option Dict) (outcome : NetOutcome α) : GetResult α :=
  get cfg now st (build_endpoint basePath path_segments none) (prepare_query params) outcome

/-- Embedding of `GenericResourceService.list_resources`. -/
def list_resources (cfg : Config) (now : Nat) (st : RateLimitInfo)
    (basePath : String) (params : Option Dict) (outcome : NetOutcome α) : GetResult α :=
  get cfg now st basePath (prepare_query params) outcome

/-- The `ValueError` guard of `GenericResourceService.get_subresource`
followed by `_build_endpoint` with the subresource suffix and `get`.
The raised `ValueError` is the `.error` case. -/
def get_subresource (cfg : Config) (now : Nat) (st : RateLimitInfo)
    (basePath : String) (path_segments : List (Option String))
    (subresource : String) (params : Option Dict) (outcome : NetOutcome α) :
    Except String (GetResult α) :=
  if subresource = "" ∨ subresource.trim = "" then
    .error "subresource must be a non-empty string"
  else
    .ok (get cfg now st (build_endpoint basePath path_segments (some subresource))
      (prepare_query params) outcome)

/-- Embedding of `ResourceDefinition` (the description/hint/sample fields feed only tool
metadata text and are omitted; `toolStem` embeds the source field
`tool_prefix`, renamed for Lean). -/
structure ResourceDefinition where
  name : String
  path : String
  toolStem : String
deriving DecidableEq

/-- Embedding of `RESOURCE_DEFINITIONS` from `resource_service.py` (name, path and tool
stem of each of the 20 entries, in source order). -/
def RESOURCE_DEFINITIONS : List ResourceDefinition := [
  ⟨"bill", "bill", "bill"⟩,
  ⟨"summaries", "summaries", "summaries"⟩,
  ⟨"congress", "congress", "congress"⟩,
  ⟨"committee", "committee", "committee"⟩,
  ⟨"committee-report", "committee-report", "committee_report"⟩,
  ⟨"committee-print", "committee-print", "committee_print"⟩,
  ⟨"committee-meeting", "committee-meeting", "committee_meeting"⟩,
  ⟨"hearing", "hearing", "hearing"⟩,
  ⟨"member", "member", "member"⟩,
  ⟨"nomination", "nomination", "nomination"⟩,
  ⟨"treaty", "treaty", "treaty"⟩,
  ⟨"crsreport", "crsreport", "crs_report"⟩,
  ⟨"law", "law", "law"⟩,
  ⟨"house-communication", "house-communication", "house_communication"⟩,
  ⟨"senate-communication", "senate-communication", "senate_communication"⟩,
  ⟨"house-requirement", "house-requirement", "house_requirement"⟩,
  ⟨"house-vote", "house-vote", "house_vote"⟩,
  ⟨"congressional-record", "congressional-record", "congressional_record"⟩,
  ⟨"daily-congressional-record", "daily-congressional-record", "daily_congressional_record"⟩,
  ⟨"bound-congressional-record", "bound-congressional-record", "bound_congressional_record"⟩]

/-! ## `mcp_tools.py` and `congress_api_mcp.py` (the routing half) -/

/-- The three actions recorded in the registration table. -/
inductive Action where
  | list
  | detail
  | subresource
deriving DecidableEq

/-- The value of `arguments.get("path_segments")` when present: either a
Python list (whose entries may be `None`) or something that is not a list
(rejected by the `isinstance` check). -/
inductive SegArg where
  | isList (xs : List (Option String))
  | notList
deriving DecidableEq

/-- The value of `arguments.get("params")` when present. -/
inductive ParamsArg where
  | isDict (d : Dict)
  | notDict
deriving DecidableEq

/-- The value of `arguments.get("subresource")` when present. -/
inductive SubArg where
  | isStr (s : String)
  | notStr
deriving DecidableEq

/-- The `arguments` mapping of a generic-resource tool call (`none` models
an absent key, which `dict.get` turns into `None`). -/
structure GenericToolArgs where
  path_segments : Option SegArg
  subresource : Option SubArg
  params : Option ParamsArg
deriving DecidableEq

/-- The exceptions the `try` block of `handle_generic_resource_tool` can
see: `ValueError`/`TypeError` (caught by the first except-clause) and the
plain `Exception`s escaping `HttpClient.get` (caught by the second). -/
inductive PyExn where
  | valueError (msg : String)
  | typeError (msg : String)
  | fromGet (e : GetError)
deriving DecidableEq

/-- Embedding of `_normalize_segments`: `None` → `[]`, non-list → `TypeError`, list →
drop `None` entries and stringify the rest. -/
def normalize_segments (value : Option SegArg) : Except PyExn (List String) :=
  match value with
  | none => .ok []
  | some .notList => .error (.typeError "path_segments must be provided as a list")
  | some (.isList xs) => .ok (xs.filterMap id)

/-- Embedding of `_validate_params`: `None` → `None`, non-dict → `TypeError`, dict →
passed through unchanged. -/
def validate_params (value : Option ParamsArg) : Except PyExn (Option Dict) :=
  match value with
  | none => .ok none
  | some .notDict => .error (.typeError "params must be an object/dictionary")
  | some (.isDict d) => .ok (some d)

/-- The per-definition tool registrations made by
`create_generic_resource_tools` (`registry[...] = {"resource": ..,
"action": ..}` for the `list_`, `get_` and `get_.._subresource` names). -/
def build_registry (defs : List ResourceDefinition) : List (String × String × Action) :=
  defs.flatMap (fun d =>
    [("list_" ++ d.toolStem, d.name, .list),
     ("get_" ++ d.toolStem, d.name, .detail),
     ("get_" ++ d.toolStem ++ "_subresource", d.name, .subresource)])

/-- The registration table the server builds at startup. -/
def generic_tool_registry : List (String × String × Action) :=
  build_registry RESOURCE_DEFINITIONS

/-- The nine tool names of `create_amendment_tools`
(`CongressApiServer.amendment_tool_names`). -/
def amendment_tool_names : List String :=
  ["list_amendments", "get_amendment", "get_amendment_actions",
   "get_amendment_cosponsors", "get_amendment_text", "get_amendments_to_amendment",
   "search_amendments", "get_amendments_by_sponsor", "get_recent_amendments"]

/-- The lookup `resource_services[name].definition.path` for the services built by
`build_generic_services` (every registered resource name is present). -/
def resource_base_path (resource : String) : String :=
  ((RESOURCE_DEFINITIONS.find? (fun d => d.name = resource)).map (fun d => d.path)).getD ""

/-- What `handle_generic_resource_tool` returns as its JSON text: either the
serialized upstream response or a serialized `ApiErrorResponse`
`{error, message, status_code}`. -/
inductive ToolOutput (α : Type) where
  | success (response : α)
  | structuredError (error message : String) (status_code : Nat)
deriving DecidableEq

/-- Result of a `handle_generic_resource_tool` call: state, whether an HTTP
request was issued, and either the returned JSON text (`.ok`) or an
exception raised past the handler (`.error`, carrying the message). -/
structure HandlerResult (α : Type) where
  state : RateLimitInfo
  requestMade : Bool
  output : Except String (ToolOutput α)

/-- Rendering `str(e)` for the exceptions raised by `HttpClient.get`. -/
def render_get_error : GetError → String
  | .rateLimitLocal c q =>
    "Rate limit exceeded: " ++ toString c ++ " requests in the last hour. Limit is " ++ toString q
  | .rateLimitServer => "API rate limit exceeded"
  | .requestFailed msg => msg

/-- The two except-clauses of `handle_generic_resource_tool`:
`(ValueError, TypeError, KeyError)` become the `ValidationError` payload
with status 400, every other `Exception` becomes `InternalError` with 500. -/
def wrap_result (inner : RateLimitInfo × Bool × Except PyExn α) : HandlerResult α :=
  match inner with
  | (st', made, .ok resp) => ⟨st', made, .ok (.success resp)⟩
  | (st', made, .error (.valueError m)) =>
    ⟨st', made, .ok (.structuredError "ValidationError" ("Invalid input: " ++ m) 400)⟩
  | (st', made, .error (.typeError m)) =>
    ⟨st', made, .ok (.structuredError "ValidationError" ("Invalid input: " ++ m) 400)⟩
  | (st', made, .error (.fromGet e)) =>
    ⟨st', made, .ok (.structuredError "InternalError"
      ("An unexpected error occurred: " ++ render_get_error e) 500)⟩

/-- Embedding of `handle_generic_resource_tool`.  The unknown-name `ValueError` is raised
*before* the `try` block and therefore escapes (`.error`); everything inside
the `try` is flattened by the two except-clauses into `ValidationError` /
`InternalError` structured payloads. -/
def handle_generic_resource_tool (tool_name : String) (arguments : GenericToolArgs)
    (cfg : Config) (now : Nat) (st : RateLimitInfo) (outcome : NetOutcome α) :
    HandlerResult α :=
  match (generic_tool_registry.find? (fun p => p.1 = tool_name)).map (fun p => p.2) with
  | none => ⟨st, false, .error ("Unknown tool: " ++ tool_name)⟩
  | some (resource, action) =>
    let basePath := resource_base_path resource
    let inner : RateLimitInfo × Bool × Except PyExn α :=
      match validate_params arguments.params with
      | .error e => (st, false, .error e)
      | .ok params =>
        match action with
        | .list =>
          let r := list_resources cfg now st basePath params outcome
          (r.state, r.requestMade, r.result.mapError .fromGet)
        | .detail =>
          match normalize_segments arguments.path_segments with
          | .error e => (st, false, .error e)
          | .ok segments =>
            if segments = [] then
              (st, false, .error (.valueError "path_segments must contain at least one value"))
            else
              let r := get_resource cfg now st basePath (segments.map some) params outcome
              (r.state, r.requestMade, r.result.mapError .fromGet)
        | .subresource =>
          match normalize_segments arguments.path_segments with
          | .error e => (st, false, .error e)
          | .ok segments =>
            match arguments.subresource with
            | some (.isStr sub) =>
              if sub.trim = "" then
                (st, false, .error (.valueError "subresource must be a non-empty string"))
              else
                match get_subresource cfg now st basePath (segments.map some) sub params outcome with
                | .error m => (st, false, .error (.valueError m))
                | .ok r => (r.state, r.requestMade, r.result.mapError .fromGet)
            | _ => (st, false, .error (.valueError "subresource must be a non-empty string"))
    wrap_result inner

/-- Where `CongressApiServer.handle_tool_call` routed the call. -/
inductive RouteOutput (α : Type) where
  | amendment
  | generic (h : HandlerResult α)

/-- Embedding of `CongressApiServer.handle_tool_call`: amendment names are delegated to
`handle_amendment_tool` (not modelled further), names in the generic
registry go to `handle_generic_resource_tool`, and any other name raises
`ValueError(f"Unknown tool: {name}")` uncaught (`.error`). -/
def handle_tool_call (name : String) (arguments : GenericToolArgs)
    (cfg : Config) (now : Nat) (st : RateLimitInfo) (outcome : NetOutcome α) :
    Except String (RouteOutput α) :=
  if name ∈ amendment_tool_names then .ok .amendment
  else if (generic_tool_registry.find? (fun p => p.1 = name)).isSome then
    .ok (.generic (handle_generic_resource_tool name arguments cfg now st outcome))
  else .error ("Unknown tool: " ++ name)

/-- A sequence of `HttpClient.get` calls against one shared client: each
list entry supplies the clock time and network behaviour of one call; the
rate-limit state threads through.  Returns the final state and the
per-call results. -/
def run_gets (cfg : Config) (endpoint : String) (params : Option Dict) :
    List (Nat × NetOutcome α) → RateLimitInfo → RateLimitInfo × List (GetResult α)
  | [], st => (st, [])
  | (t, o) :: rest, st =>
    let r := get cfg t st endpoint params o
    let (stF, rs) := run_gets cfg endpoint params rest r.state
    (stF, r :: rs)

/-- A result is a `RateLimitExceeded` failure (either the local pre-check
exception or the server-429 `Exception("API rate limit exceeded")`). -/
def isRateLimitFailure (r : Except GetError α) : Prop :=
  (∃ c q, r = .error (.rateLimitLocal c q)) ∨ r = .error .rateLimitServer

/-- The network call returned an HTTP response (as opposed to raising a
transport-level `RequestException`). -/
def NetOutcome.isResponse : NetOutcome α → Prop
  | .response _ _ => True
  | .transportError _ => False

/-! ## Lemmas about stripping and segment normalization (claim C9) -/

theorem dropWhile_dropWhile (p : α → Bool) (l : List α) :
    (l.dropWhile p).dropWhile p = l.dropWhile p := by
  induction l with
  | nil => rfl
  | cons a t ih =>
    cases hpa : p a with
    | true => simpa [List.dropWhile_cons, hpa] using ih
    | false => simp [List.dropWhile_cons, hpa]

theorem head?_dropWhile_false (p : α → Bool) :
    ∀ (l : List α) {a : α}, (l.dropWhile p).head? = some a → p a = false := by
  intro l
  induction l with
  | nil => intro a h; simp [List.dropWhile] at h
  | cons b t ih =>
    intro a h
    cases hpb : p b with
    | false =>
      rw [List.dropWhile_cons_of_neg (by simp [hpb])] at h
      simp only [List.head?_cons, Option.some.injEq] at h
      exact h ▸ hpb
    | true =>
      rw [List.dropWhile_cons_of_pos (by simp [hpb])] at h
      exact ih h

theorem dropWhile_eq_self_of_head (p : α → Bool) (l : List α)
    (h : ∀ a, l.head? = some a → p a = false) : l.dropWhile p = l := by
  cases l with
  | nil => rfl
  | cons b t => rw [List.dropWhile_cons_of_neg (by simp [h b rfl])]

theorem getLast?_dropWhile (p : α → Bool) :
    ∀ (l : List α), l.dropWhile p ≠ [] → (l.dropWhile p).getLast? = l.getLast? := by
  intro l
  induction l with
  | nil => intro h; simp [List.dropWhile] at h
  | cons b t ih =>
    intro h
    cases hpb : p b with
    | false => rw [List.dropWhile_cons_of_neg (by simp [hpb])]
    | true =>
      rw [List.dropWhile_cons_of_pos (by simp [hpb])] at h ⊢
      rw [ih h]
      have ht : t ≠ [] := by
        intro hte
        rw [hte] at h
        simp [List.dropWhile] at h
      cases t with
      | nil => exact absurd rfl ht
      | cons c u => rw [List.getLast?_cons_cons]

theorem stripAux_idem (c : Char) (l : List Char) :
    stripAux c (stripAux c l) = stripAux c l := by
  unfold stripAux
  set p : Char → Bool := fun x => x = c with hp
  set A : List Char := l.dropWhile p with hA
  set B : List Char := A.reverse.dropWhile p with hB
  have step1 : B.reverse.dropWhile p = B.reverse := by
    apply dropWhile_eq_self_of_head
    intro a ha
    rw [List.head?_reverse] at ha
    have hBne : B ≠ [] := by
      intro hBe
      rw [hBe] at ha
      simp at ha
    rw [hB, getLast?_dropWhile p A.reverse (hB ▸ hBne), List.getLast?_reverse, hA] at ha
    exact head?_dropWhile_false p l ha
  rw [step1, List.reverse_reverse, hB, dropWhile_dropWhile]

theorem pyStripChar_idem (c : Char) (s : String) :
    pyStripChar c (pyStripChar c s) = pyStripChar c s := by
  unfold pyStripChar
  exact String.ext (stripAux_idem c s.data)

theorem filterMap_eq_self_of_forall {f : α → Option α} :
    ∀ (l : List α), (∀ a ∈ l, f a = some a) → l.filterMap f = l := by
  intro l
  induction l with
  | nil => intro _; rfl
  | cons a t ih =>
    intro h
    rw [List.filterMap_cons, h a (List.mem_cons_self a t)]
    rw [ih (fun b hb => h b (List.mem_cons_of_mem a hb))]

theorem mem_normalize_path_segments {t : String} {xs : List (Option String)}
    (h : t ∈ normalize_path_segments xs) :
    pyStripChar '/' t = t ∧ t ≠ "" := by
  unfold normalize_path_segments at h
  rw [List.mem_filterMap] at h
  obtain ⟨o, _, ho⟩ := h
  match o with
  | none => simp at ho
  | some v =>
    simp only at ho
    by_cases hv : pyStripChar '/' v = ""
    · rw [if_pos hv] at ho
      exact absurd ho (by simp)
    · rw [if_neg hv] at ho
      simp only [Option.some.injEq] at ho
      subst ho
      exact ⟨pyStripChar_idem '/' v, hv⟩

/-- C9: Path-segment normalization (stringify, strip leading/trailing `/`,
drop segments that become empty or were `None`) is idempotent: normalizing
an already-normalized segment list yields the same list. -/
theorem c9_normalize_idempotent (xs : List (Option String)) :
    normalize_path_segments ((normalize_path_segments xs).map some) =
      normalize_path_segments xs := by
  unfold normalize_path_segments
  rw [List.filterMap_map]
  apply filterMap_eq_self_of_forall
  intro t ht
  obtain ⟨hstrip, hne⟩ := mem_normalize_path_segments ht
  simp only [Function.comp]
  rw [hstrip, if_neg hne]

/-! ## Lemmas about `dictSet` and URL building (claims C7, C8) -/

theorem mem_dictSet_self (d : Dict) (k : String) (v : Option Val) :
    (k, v) ∈ dictSet d k v := by
  unfold dictSet
  split
  case isTrue h =>
    rw [Option.isSome_iff_exists] at h
    obtain ⟨p, hp⟩ := h
    have hmem : p ∈ d := List.mem_of_find?_eq_some hp
    have hk : p.1 = k := by
      have := List.find?_some hp
      exact of_decide_eq_true this
    rw [List.mem_map]
    exact ⟨p, hmem, by rw [if_pos hk]⟩
  case isFalse h =>
    rw [List.mem_append]
    exact Or.inr (List.mem_singleton.mpr rfl)

theorem mem_dictSet_of_ne {d : Dict} {k' : String} {v' : Option Val}
    (k : String) (v : Option Val) (hne : k ≠ k') :
    (k, v) ∈ dictSet d k' v' ↔ (k, v) ∈ d := by
  unfold dictSet
  split
  · rw [List.mem_map]
    constructor
    · rintro ⟨p, hp, hfp⟩
      by_cases h1 : p.1 = k'
      · rw [if_pos h1] at hfp
        exact absurd (congrArg Prod.fst hfp).symm hne
      · rw [if_neg h1] at hfp
        exact hfp ▸ hp
    · intro hm
      exact ⟨(k, v), hm, by rw [if_neg (show ¬((k, v).1 = k') from hne)]⟩
  · rw [List.mem_append]
    constructor
    · rintro (h | h)
      · exact h
      · exact absurd (congrArg Prod.fst (List.mem_singleton.mp h)) hne
    · exact Or.inl

theorem nodup_keys_dictSet (d : Dict) (k : String) (v : Option Val)
    (h : (d.map Prod.fst).Nodup) : ((dictSet d k v).map Prod.fst).Nodup := by
  unfold dictSet
  split
  case isTrue hf =>
    have hkeys : (d.map (fun p => if p.1 = k then (k, v) else p)).map Prod.fst =
        d.map Prod.fst := by
      rw [List.map_map]
      apply List.map_congr_left
      intro p _
      by_cases h1 : p.1 = k
      · simp [Function.comp, h1]
      · simp [Function.comp, h1]
    rw [hkeys]
    exact h
  case isFalse hf =>
    rw [List.map_append]
    have hk : k ∉ d.map Prod.fst := by
      intro hmem
      rw [List.mem_map] at hmem
      obtain ⟨p, hp, hpk⟩ := hmem
      apply hf
      rw [List.find?_isSome]
      exact ⟨p, hp, decide_eq_true hpk⟩
    simp [List.nodup_append, h, hk]

theorem value_eq_of_nodup_keys :
    ∀ {d : Dict}, (d.map Prod.fst).Nodup → ∀ {k : String} {v₁ v₂ : Option Val},
      (k, v₁) ∈ d → (k, v₂) ∈ d → v₁ = v₂ := by
  intro d
  induction d with
  | nil => intro _ k v₁ v₂ h1; simp at h1
  | cons p t ih =>
    intro h k v₁ v₂ h1 h2
    rw [List.map_cons, List.nodup_cons] at h
    have keymem : ∀ {v : Option Val}, (k, v) ∈ t → k ∈ t.map Prod.fst := by
      intro v hv
      rw [List.mem_map]
      exact ⟨(k, v), hv, rfl⟩
    rcases List.mem_cons.mp h1 with e1 | m1
    · rcases List.mem_cons.mp h2 with e2 | m2
      · rw [← e1] at e2
        exact (congrArg Prod.snd e2).symm
      · exact absurd (congrArg Prod.fst e1 ▸ keymem m2) h.1
    · rcases List.mem_cons.mp h2 with e2 | m2
      · exact absurd (congrArg Prod.fst e2 ▸ keymem m1) h.1
      · exact ih h.2 m1 m2

theorem mem_final_params_api_key (cfg : Config) (d : Dict) :
    ("api_key", some (Val.str cfg.api_key)) ∈ final_params cfg d := by
  unfold final_params
  rw [mem_dictSet_of_ne _ _ (by decide)]
  exact mem_dictSet_self _ _ _

theorem mem_final_params_format (cfg : Config) (d : Dict) :
    ("format", some (Val.str cfg.default_format)) ∈ final_params cfg d :=
  mem_dictSet_self _ _ _

theorem nodup_keys_final_params (cfg : Config) (d : Dict)
    (h : (d.map Prod.fst).Nodup) : ((final_params cfg d).map Prod.fst).Nodup :=
  nodup_keys_dictSet _ _ _ (nodup_keys_dictSet _ _ _ h)

/-- C7: for every caller params mapping (with the well-formed unique keys a
Python dict guarantees), no key whose value is `None` survives into the
query pairs of the built URL — apart from `api_key`/`format`, which always
appear and carry exactly the configured credential and format, overriding
any caller-supplied values under those names — and the built URL is the
base/endpoint path followed by exactly those query parts. -/
theorem c7_build_url_query (cfg : Config) (endpoint : String) (params : Dict)
    (hnodup : (params.map Prod.fst).Nodup) :
    (∀ k, (k, (none : Option Val)) ∈ params → k ≠ "api_key" → k ≠ "format" →
        k ∉ (query_pairs (final_params cfg params)).map Prod.fst) ∧
    ("api_key", some (Val.str cfg.api_key)) ∈ query_pairs (final_params cfg params) ∧
    ("format", some (Val.str cfg.default_format)) ∈ query_pairs (final_params cfg params) ∧
    (∀ v, ("api_key", v) ∈ query_pairs (final_params cfg params) →
        v = some (Val.str cfg.api_key)) ∧
    (∀ v, ("format", v) ∈ query_pairs (final_params cfg params) →
        v = some (Val.str cfg.default_format)) ∧
    (build_url cfg endpoint (some params)).1 =
      cfg.base_url ++ "/" ++ endpoint ++ "?" ++
        String.intercalate "&" (query_parts (final_params cfg params)) := by
  have hfnodup := nodup_keys_final_params cfg params hnodup
  have hak := mem_final_params_api_key cfg params
  have hfmt := mem_final_params_format cfg params
  have hakq : ("api_key", some (Val.str cfg.api_key)) ∈ query_pairs (final_params cfg params) := by
    unfold query_pairs
    rw [List.mem_filter]
    exact ⟨hak, rfl⟩
  have hfmtq : ("format", some (Val.str cfg.default_format)) ∈ query_pairs (final_params cfg params) := by
    unfold query_pairs
    rw [List.mem_filter]
    exact ⟨hfmt, rfl⟩
  refine ⟨?_, hakq, hfmtq, ?_, ?_, ?_⟩
  · intro k hk hne1 hne2 hmem
    have hkfinal : (k, (none : Option Val)) ∈ final_params cfg params := by
      unfold final_params
      rw [mem_dictSet_of_ne _ _ hne2, mem_dictSet_of_ne _ _ hne1]
      exact hk
    rw [List.mem_map] at hmem
    obtain ⟨p, hp, hpk⟩ := hmem
    unfold query_pairs at hp
    rw [List.mem_filter] at hp
    obtain ⟨hpf, hps⟩ := hp
    have : p.2 = (none : Option Val) := by
      have : (p.1, p.2) ∈ final_params cfg params := by
        simpa using hpf
      rw [hpk] at this
      exact value_eq_of_nodup_keys hfnodup this hkfinal
    rw [this] at hps
    simp at hps
  · intro v hv
    unfold query_pairs at hv
    rw [List.mem_filter] at hv
    exact value_eq_of_nodup_keys hfnodup hv.1 hak
  · intro v hv
    unfold query_pairs at hv
    rw [List.mem_filter] at hv
    exact value_eq_of_nodup_keys hfnodup hv.1 hfmt
  · have hdne : final_params cfg params ≠ [] := List.ne_nil_of_mem hak
    have hqpne : query_parts (final_params cfg params) ≠ [] := by
      unfold query_parts
      intro h
      exact List.ne_nil_of_mem hakq (List.map_eq_nil_iff.mp h)
    simp only [build_url, Option.getD_some]
    rw [if_pos hdne, if_pos hqpne]

/-- Witness for C7 at the caller mapping `{"a": None}`. -/
theorem c7_witness :
    (([("a", (none : Option Val))] : Dict).map Prod.fst).Nodup ∧
    (∀ k, (k, (none : Option Val)) ∈ ([("a", none)] : Dict) → k ≠ "api_key" → k ≠ "format" →
        k ∉ (query_pairs (final_params ⟨"KEY"⟩ [("a", none)])).map Prod.fst) ∧
    ("api_key", some (Val.str "KEY")) ∈ query_pairs (final_params ⟨"KEY"⟩ [("a", none)]) := by
  have h := c7_build_url_query ⟨"KEY"⟩ "bill" [("a", none)] (by simp)
  exact ⟨by simp, h.1, h.2.1⟩

/-! ## C8: `_build_url` mutates the caller's params -/

theorem find?_map_update_ne (k k' : String) (v : Option Val) (hne : k ≠ k') :
    ∀ (d : Dict),
      (d.map (fun p => if p.1 = k' then (k', v) else p)).find? (fun p => p.1 = k) =
        d.find? (fun p => p.1 = k) := by
  intro d
  induction d with
  | nil => rfl
  | cons p t ih =>
    rw [List.map_cons]
    by_cases h1 : p.1 = k'
    · rw [if_pos h1]
      have hpk : ¬(p.1 = k) := by rw [h1]; exact fun h => hne h.symm
      rw [List.find?_cons_of_neg _ (by simpa using fun h => hne h.symm),
        List.find?_cons_of_neg _ (by simpa using hpk)]
      exact ih
    · rw [if_neg h1]
      by_cases h2 : p.1 = k
      · rw [List.find?_cons_of_pos _ (by simp [h2]), List.find?_cons_of_pos _ (by simp [h2])]
      · rw [List.find?_cons_of_neg _ (by simp [h2]), List.find?_cons_of_neg _ (by simp [h2])]
        exact ih

theorem find?_append_single_ne (k k' : String) (v : Option Val) (hne : k ≠ k') :
    ∀ (d : Dict), (d ++ [(k', v)]).find? (fun p => p.1 = k) = d.find? (fun p => p.1 = k) := by
  intro d
  induction d with
  | nil =>
    simp only [List.nil_append]
    rw [List.find?_cons_of_neg _ (by simpa using fun h => hne h.symm)]
  | cons p t ih =>
    rw [List.cons_append]
    by_cases h2 : p.1 = k
    · rw [List.find?_cons_of_pos _ (by simpa using h2),
        List.find?_cons_of_pos _ (by simpa using h2)]
    · rw [List.find?_cons_of_neg _ (by simpa using h2),
        List.find?_cons_of_neg _ (by simpa using h2)]
      exact ih

theorem dictFind_dictSet_ne (d : Dict) (k' : String) (v : Option Val)
    (k : String) (hne : k ≠ k') : dictFind (dictSet d k' v) k = dictFind d k := by
  unfold dictFind dictSet
  split
  · rw [find?_map_update_ne k k' v hne d]
  · rw [find?_append_single_ne k k' v hne d]

/-- C8 counterexample: with the caller mapping `{"a": "1"}`, the caller's
dict after `_build_url` has gained the `api_key` and `format` entries — the
function is not side-effect free on its arguments. -/
theorem c8_counterexample :
    (build_url ⟨"KEY"⟩ "bill" (some [("a", some (Val.str "1"))])).2 =
      some [("a", some (Val.str "1")), ("api_key", some (Val.str "KEY")),
        ("format", some (Val.str "json"))] ∧
    (build_url ⟨"KEY"⟩ "bill" (some [("a", some (Val.str "1"))])).2 ≠
      some [("a", some (Val.str "1"))] := by
  constructor
  · rfl
  · intro h
    have h0 : (build_url ⟨"KEY"⟩ "bill" (some [("a", some (Val.str "1"))])).2 =
        some [("a", some (Val.str "1")), ("api_key", some (Val.str "KEY")),
          ("format", some (Val.str "json"))] := rfl
    rw [h0] at h
    exact absurd (Option.some.inj h) (by decide)

/-- C8 (amended): `_build_url` performs no I/O, and its only effect on the
caller's params mapping is at the keys `api_key` and `format`: every other
key keeps exactly the binding it had before the call, and a `None` caller
mapping stays absent. -/
theorem c8_frame (cfg : Config) (endpoint : String) (d : Dict) (k : String)
    (h1 : k ≠ "api_key") (h2 : k ≠ "format") :
    dictFind (((build_url cfg endpoint (some d)).2).getD []) k = dictFind d k ∧
    (build_url cfg endpoint (none : Option Dict)).2 = none := by
  constructor
  · have hsnd : (build_url cfg endpoint (some d)).2 = some (final_params cfg d) := rfl
    rw [hsnd, Option.getD_some]
    unfold final_params
    rw [dictFind_dictSet_ne _ _ _ _ h2, dictFind_dictSet_ne _ _ _ _ h1]
  · rfl

/-- Witness for C8's amended frame property at key `"a"`. -/
theorem c8_witness :
    ("a" : String) ≠ "api_key" ∧ ("a" : String) ≠ "format" ∧
    dictFind (((build_url ⟨"KEY"⟩ "bill" (some [("a", some (Val.str "1"))])).2).getD []) "a" =
      dictFind [("a", some (Val.str "1"))] "a" := by
  refine ⟨by decide, by decide, ?_⟩
  exact (c8_frame ⟨"KEY"⟩ "bill" [("a", some (Val.str "1"))] "a" (by decide) (by decide)).1

/-! ## Lemmas about the rate-limit pre-check -/

theorem rollover_eq_self {now : Nat} {st : RateLimitInfo}
    (hwin : now - st.hour_start_time < 3600) : rollover now st = st := by
  unfold rollover
  rw [if_neg (Nat.not_le_of_lt hwin)]

theorem check_rate_limit_pass {cfg : Config} {now : Nat} {st : RateLimitInfo}
    (hwin : now - st.hour_start_time < 3600)
    (hq : st.requests_this_hour < cfg.rate_limit_per_hour) :
    check_rate_limit cfg now st = (st, none) := by
  unfold check_rate_limit
  rw [rollover_eq_self hwin, if_neg (Nat.not_le_of_lt hq)]

theorem check_rate_limit_some {cfg : Config} {now : Nat} {st st₁ : RateLimitInfo}
    {e : GetError} (h : check_rate_limit cfg now st = (st₁, some e)) :
    ∃ c q, e = GetError.rateLimitLocal c q := by
  unfold check_rate_limit at h
  by_cases hq : cfg.rate_limit_per_hour ≤ (rollover now st).requests_this_hour
  · rw [if_pos hq] at h
    have h2 := congrArg Prod.snd h
    exact ⟨_, _, (Option.some.inj h2).symm⟩
  · rw [if_neg hq] at h
    have h2 := congrArg Prod.snd h
    exact absurd h2 (by simp)

/-! ## C1: empty path segments and `get_resource` -/

/-- C1 counterexample: `GenericResourceService.get_resource` with an empty
path-segment list does not fail with any `InvalidArgument`/`ValueError`: it
builds the bare base-path endpoint, issues the HTTP request, and returns
the payload. -/
theorem c1_counterexample :
    build_endpoint "bill" [] none = "bill" ∧
    (get_resource ⟨"KEY"⟩ 0 ⟨0, 0, false⟩ "bill" [] none
      (NetOutcome.response 200 (some "BODY"))).requestMade = true ∧
    (get_resource ⟨"KEY"⟩ 0 ⟨0, 0, false⟩ "bill" [] none
      (NetOutcome.response 200 (some "BODY"))).result = Except.ok "BODY" :=
  ⟨rfl, rfl, rfl⟩

/-- C1 (amended): the empty-segment rejection lives in the tool router, not
in `get_resource`: for every registered `detail` tool, arguments whose
`path_segments` normalize to the empty list (and whose `params` pass
validation) make `handle_generic_resource_tool` return the structured
`ValidationError` payload with status 400, before any HTTP request. -/
theorem c1_router_rejects_empty_segments (tool_name resource : String)
    (arguments : GenericToolArgs) (cfg : Config) (now : Nat) (st : RateLimitInfo)
    (outcome : NetOutcome α)
    (hreg : (generic_tool_registry.find? (fun p => p.1 = tool_name)).map (fun p => p.2) =
      some (resource, Action.detail))
    (hparams : ∃ p, validate_params arguments.params = .ok p)
    (hseg : normalize_segments arguments.path_segments = .ok []) :
    handle_generic_resource_tool tool_name arguments cfg now st outcome =
      ⟨st, false, .ok (.structuredError "ValidationError"
        "Invalid input: path_segments must contain at least one value" 400)⟩ := by
  obtain ⟨p, hp⟩ := hparams
  simp only [handle_generic_resource_tool, hreg, hp, hseg]
  rfl

/-- Witness for the amended C1 at the `get_bill` tool with no arguments. -/
theorem c1_router_witness :
    ((generic_tool_registry.find? (fun p => p.1 = "get_bill")).map (fun p => p.2) =
      some ("bill", Action.detail)) ∧
    (handle_generic_resource_tool "get_bill" ⟨none, none, none⟩ ⟨"KEY"⟩ 0 ⟨0, 0, false⟩
        (NetOutcome.response 200 (some "B"))).output =
      .ok (.structuredError "ValidationError"
        "Invalid input: path_segments must contain at least one value" 400) := by
  have hreg : (generic_tool_registry.find? (fun p => p.1 = "get_bill")).map (fun p => p.2) =
      some ("bill", Action.detail) := by rfl
  have h := c1_router_rejects_empty_segments "get_bill" "bill" ⟨none, none, none⟩
    ⟨"KEY"⟩ 0 ⟨0, 0, false⟩ (NetOutcome.response 200 (some "B"))
    hreg ⟨none, rfl⟩ rfl
  exact ⟨hreg, by rw [h]⟩

/-! ## C3: when the request counter is incremented -/

/-- C3 counterexample: a transport-level failure (e.g. timeout) raised by
`session.get` skips the increment on line 110 of `http_client.py`: the call
passed the pre-check and issued the network call, yet the counter is
unchanged (the claim says it should have become 1). -/
theorem c3_counterexample :
    (get ⟨"KEY"⟩ 0 ⟨0, 0, false⟩ "bill" none
      (NetOutcome.transportError "timed out" : NetOutcome String)).requestMade = true ∧
    (get ⟨"KEY"⟩ 0 ⟨0, 0, false⟩ "bill" none
      (NetOutcome.transportError "timed out" : NetOutcome String)).state.requests_this_hour
      = 0 :=
  ⟨rfl, rfl⟩

/-- C3 (amended): for a call that passes the rate-limit pre-check, the
counter is incremented by exactly one whenever `session.get` returns an
HTTP response (whatever its status or body), and is left unchanged when
the network call itself raises (timeout, connection error). -/
theorem c3_increment_iff_response (cfg : Config) (now : Nat) (st : RateLimitInfo)
    (endpoint : String) (params : Option Dict) (status : Nat) (body : Option α)
    (msg : String) :
    ((get cfg now st endpoint params (NetOutcome.response status body)).requestMade = true →
      (get cfg now st endpoint params (NetOutcome.response status body)).state.requests_this_hour
        = (check_rate_limit cfg now st).1.requests_this_hour + 1) ∧
    ((get cfg now st endpoint params (NetOutcome.transportError msg : NetOutcome α)).requestMade
        = true →
      (get cfg now st endpoint params
          (NetOutcome.transportError msg : NetOutcome α)).state.requests_this_hour
        = (check_rate_limit cfg now st).1.requests_this_hour) := by
  rcases hc : check_rate_limit cfg now st with ⟨st₁, e⟩
  cases e with
  | some err =>
    constructor
    · intro h
      simp only [get, hc] at h
      exact Bool.noConfusion h
    · intro h
      simp only [get, hc] at h
      exact Bool.noConfusion h
  | none =>
    constructor
    · intro _
      simp only [get, hc]
      by_cases h4 : 400 ≤ status ∧ status < 600
      · rw [if_pos h4]
      · rw [if_neg h4]
        by_cases h429 : status = 429
        · rw [if_pos h429]
        · rw [if_neg h429]
          cases body <;> rfl
    · intro _
      simp only [get, hc]

/-- Witness for the amended C3: from a fresh client at time 0, a 200
response bumps the counter to 1 and a timeout leaves it at 0. -/
theorem c3_witness :
    (get ⟨"KEY"⟩ 0 ⟨0, 0, false⟩ "bill" none
        (NetOutcome.response 200 (some "B"))).state.requests_this_hour =
      (check_rate_limit ⟨"KEY"⟩ 0 ⟨0, 0, false⟩).1.requests_this_hour + 1 ∧
    (get ⟨"KEY"⟩ 0 ⟨0, 0, false⟩ "bill" none
        (NetOutcome.transportError "t" : NetOutcome String)).state.requests_this_hour =
      (check_rate_limit ⟨"KEY"⟩ 0 ⟨0, 0, false⟩).1.requests_this_hour := by
  have h := c3_increment_iff_response ⟨"KEY"⟩ 0 ⟨0, 0, false⟩ "bill" none 200
    (some "B") "t"
  exact ⟨h.1 rfl, h.2 rfl⟩

/-! ## C4: server 429 responses -/

/-- C4: the 429 branch of `HttpClient.get` is dead code.  Because
`raise_for_status()` runs first and 429 lies in [400, 600), a 429 response
surfaces as the generic `RequestFailed` ("API request failed: ...") with
`is_rate_limited` left untouched — not as `RateLimitExceeded` with
`is_rate_limited = true` as the claim states.  (The counter still counts
the attempt.) -/
theorem c4_429_is_requestFailed :
    (get ⟨"KEY"⟩ 0 ⟨0, 0, false⟩ "bill" none
      (NetOutcome.response 429 (some "BODY"))).result =
      Except.error (GetError.requestFailed "API request failed: HTTP 429") ∧
    (get ⟨"KEY"⟩ 0 ⟨0, 0, false⟩ "bill" none
      (NetOutcome.response 429 (some "BODY"))).state.is_rate_limited = false ∧
    (get ⟨"KEY"⟩ 0 ⟨0, 0, false⟩ "bill" none
      (NetOutcome.response 429 (some "BODY"))).state.requests_this_hour = 1 :=
  ⟨rfl, rfl, rfl⟩

/-! ## C10: zero `limit` makes `get_paginated` divide by zero -/

/-- C10: with caller params carrying `limit = 0`, once the first page
response holds the endpoint's data key and a pagination envelope with a
positive count, `get_paginated` reaches `len(all_results) // limit` and
raises an unhandled `ZeroDivisionError` — not one of the typed failures. -/
theorem c10_zero_limit_division (cfg : Config) (endpoint : String) (params : Dict)
    (now : Nat) (st : RateLimitInfo) (max_pages fuel status count : Nat)
    (xs : List α) (oracle : Nat → Nat × NetOutcome (PageResponse α))
    (hlimit : dictFind params "limit" = some (some (.nat 0)))
    (horacle : oracle 0 = (now, NetOutcome.response status (some ⟨some xs, some count⟩)))
    (hstatus : ¬(400 ≤ status ∧ status < 600))
    (hwin : now - st.hour_start_time < 3600)
    (hquota : st.requests_this_hour < cfg.rate_limit_per_hour)
    (hcount : 0 < count) (hfuel : 0 < fuel) :
    get_paginated cfg endpoint (some params) max_pages oracle st fuel =
      some ⟨1, ⟨st.requests_this_hour + 1, st.hour_start_time, st.is_rate_limited⟩,
        PagOutcome.zeroDiv⟩ := by
  obtain ⟨fuel', rfl⟩ : ∃ f, fuel = f + 1 :=
    ⟨fuel - 1, (Nat.succ_pred_eq_of_pos hfuel).symm⟩
  have h429 : status ≠ 429 := by
    intro h
    exact hstatus (by rw [h]; exact ⟨by decide, by decide⟩)
  simp only [get_paginated, Option.getD_some, effective_limit, hlimit]
  simp only [get_paginated_loop, horacle]
  simp only [get, check_rate_limit_pass hwin hquota]
  simp only [if_neg hstatus, if_neg h429]
  simp only [if_neg (show ¬(0 + 0 ≥ count) from by simpa using Nat.not_le_of_lt hcount),
    if_pos rfl]
  simp

/-! ## C6: unknown tool names -/

theorem wrap_result_ok (inner : RateLimitInfo × Bool × Except PyExn α) :
    ∃ o, (wrap_result inner).output = Except.ok o := by
  rcases inner with ⟨st', made, res⟩
  cases res with
  | ok r => exact ⟨_, rfl⟩
  | error e => cases e <;> exact ⟨_, rfl⟩

/-- C6 counterexample: dispatching an unregistered tool name does not return
the claimed `UnknownTool` structured error object — the router raises
`ValueError(f"Unknown tool: {name}")`, which propagates uncaught. -/
theorem c6_counterexample :
    handle_tool_call "nonexistent_tool" ⟨none, none, none⟩ ⟨"KEY"⟩ 0 ⟨0, 0, false⟩
      (NetOutcome.response 200 (some "B")) =
      Except.error "Unknown tool: nonexistent_tool" := by
  rfl

/-- C6 (amended): a tool name in neither the amendment set nor the generic
registry makes `handle_tool_call` raise `ValueError("Unknown tool: ...")`
uncaught rather than return a structured error; for every name that *is* in
the generic registry, `handle_generic_resource_tool` never lets an
exception past the router — its output is always a returned payload
(success or `ValidationError`/`InternalError` structured error). -/
theorem c6_unknown_raises_registered_catches (name : String)
    (arguments : GenericToolArgs) (cfg : Config) (now : Nat) (st : RateLimitInfo)
    (outcome : NetOutcome α)
    (h1 : name ∉ amendment_tool_names)
    (h2 : generic_tool_registry.find? (fun p => p.1 = name) = none) :
    handle_tool_call name arguments cfg now st outcome =
      Except.error ("Unknown tool: " ++ name) ∧
    ∀ name', (generic_tool_registry.find? (fun p => p.1 = name')).isSome →
      ∃ o, (handle_generic_resource_tool name' arguments cfg now st outcome).output =
        Except.ok o := by
  constructor
  · unfold handle_tool_call
    rw [if_neg h1, if_neg (by rw [h2]; exact Bool.noConfusion)]
  · intro name' h3
    rw [Option.isSome_iff_exists] at h3
    obtain ⟨pr, hpr⟩ := h3
    obtain ⟨nm, resource, action⟩ := pr
    unfold handle_generic_resource_tool
    rw [hpr]
    exact wrap_result_ok _

/-- Witness for the amended C6 at a concrete unregistered name. -/
theorem c6_witness :
    "nonexistent_tool" ∉ amendment_tool_names ∧
    generic_tool_registry.find? (fun p => p.1 = "nonexistent_tool") = none ∧
    handle_tool_call "nonexistent_tool" ⟨none, none, none⟩ ⟨"KEY"⟩ 0 ⟨0, 0, false⟩
        (NetOutcome.response 200 (some "B")) =
      Except.error ("Unknown tool: " ++ "nonexistent_tool") ∧
    (∃ o, (handle_generic_resource_tool "get_bill" ⟨none, none, none⟩ ⟨"KEY"⟩ 0 ⟨0, 0, false⟩
        (NetOutcome.response 200 (some "B"))).output = Except.ok o) := by
  have h := c6_unknown_raises_registered_catches "nonexistent_tool" ⟨none, none, none⟩
    ⟨"KEY"⟩ 0 ⟨0, 0, false⟩ (NetOutcome.response 200 (some "B"))
    (by decide) (by rfl)
  exact ⟨by decide, by rfl, h.1, h.2 "get_bill" (by rfl)⟩

/-- Witness for C10 on a concrete page (data key present, count 5 > 0). -/
theorem c10_witness :
    dictFind [("limit", some (Val.nat 0))] "limit" = some (some (Val.nat 0)) ∧
    get_paginated ⟨"KEY"⟩ "bill" (some [("limit", some (Val.nat 0))]) 10
        (fun _ => (0, NetOutcome.response 200
          (some (⟨some [0], some 5⟩ : PageResponse Nat)))) ⟨0, 0, false⟩ 3 =
      some ⟨1, ⟨1, 0, false⟩, PagOutcome.zeroDiv⟩ := by
  refine ⟨rfl, ?_⟩
  exact c10_zero_limit_division ⟨"KEY"⟩ "bill" [("limit", some (Val.nat 0))] 0
    ⟨0, 0, false⟩ 10 3 200 5 [0] _ rfl rfl (by decide) (by decide) (by decide)
    (by decide) (by decide)

/-! ## C2: the rolling-hour quota -/

/-- The server-429 `Exception("API rate limit exceeded")` branch of
`HttpClient.get` is unreachable: `raise_for_status` fires first on every
status in [400, 600), 429 included. -/
theorem get_no_server_rateLimit (cfg : Config) (now : Nat) (st : RateLimitInfo)
    (endpoint : String) (params : Option Dict) (o : NetOutcome α) :
    (get cfg now st endpoint params o).result ≠ Except.error GetError.rateLimitServer := by
  rcases hc : check_rate_limit cfg now st with ⟨st₁, e⟩
  cases e with
  | some err =>
    obtain ⟨c, q, rfl⟩ := check_rate_limit_some hc
    simp [get, hc]
  | none =>
    cases o with
    | transportError msg => simp [get, hc]
    | response status body =>
      simp only [get, hc]
      by_cases h4 : 400 ≤ status ∧ status < 600
      · simp [if_pos h4]
      · rw [if_neg h4]
        by_cases h429 : status = 429
        · subst h429
          exact absurd ⟨by decide, by decide⟩ h4
        · rw [if_neg h429]
          cases body <;> simp

theorem get_step (cfg : Config) (now : Nat) (st : RateLimitInfo)
    (endpoint : String) (params : Option Dict) (o : NetOutcome α)
    (hwin : now - st.hour_start_time < 3600)
    (hq : st.requests_this_hour < cfg.rate_limit_per_hour) :
    (get cfg now st endpoint params o).requestMade = true ∧
    (get cfg now st endpoint params o).state.hour_start_time = st.hour_start_time ∧
    st.requests_this_hour ≤ (get cfg now st endpoint params o).state.requests_this_hour ∧
    (get cfg now st endpoint params o).state.requests_this_hour ≤
      st.requests_this_hour + 1 ∧
    (o.isResponse →
      (get cfg now st endpoint params o).state.requests_this_hour =
        st.requests_this_hour + 1) ∧
    (∀ c q, (get cfg now st endpoint params o).result ≠
      Except.error (GetError.rateLimitLocal c q)) := by
  cases o with
  | transportError msg =>
    simp only [get, check_rate_limit_pass hwin hq]
    simp [NetOutcome.isResponse]
  | response status body =>
    simp only [get, check_rate_limit_pass hwin hq]
    by_cases h4 : 400 ≤ status ∧ status < 600
    · rw [if_pos h4]
      simp [NetOutcome.isResponse]
    · rw [if_neg h4]
      by_cases h429 : status = 429
      · rw [if_pos h429]
        simp [NetOutcome.isResponse]
      · rw [if_neg h429]
        cases body with
        | some a => simp [NetOutcome.isResponse]
        | none => simp [NetOutcome.isResponse]

theorem run_gets_window (cfg : Config) (endpoint : String) (params : Option Dict)
    (t0 : Nat) :
    ∀ (calls : List (Nat × NetOutcome α)) (st : RateLimitInfo),
      st.hour_start_time = t0 →
      (∀ p ∈ calls, p.1 - t0 < 3600) →
      st.requests_this_hour + calls.length ≤ cfg.rate_limit_per_hour →
      (run_gets cfg endpoint params calls st).1.hour_start_time = t0 ∧
      st.requests_this_hour ≤ (run_gets cfg endpoint params calls st).1.requests_this_hour ∧
      (run_gets cfg endpoint params calls st).1.requests_this_hour ≤
        st.requests_this_hour + calls.length ∧
      (∀ r ∈ (run_gets cfg endpoint params calls st).2,
        (∀ c q, r.result ≠ Except.error (GetError.rateLimitLocal c q)) ∧
        r.result ≠ Except.error GetError.rateLimitServer) ∧
      ((∀ p ∈ calls, (p.2 : NetOutcome α).isResponse) →
        (run_gets cfg endpoint params calls st).1.requests_this_hour =
          st.requests_this_hour + calls.length) := by
  intro calls
  induction calls with
  | nil =>
    intro st hst _ _
    exact ⟨hst, Nat.le_refl _, Nat.le_refl _, by simp [run_gets], fun _ => rfl⟩
  | cons p rest ih =>
    obtain ⟨t, o⟩ := p
    intro st hst hwin hquota
    have hwin1 : t - st.hour_start_time < 3600 := by
      rw [hst]
      exact hwin (t, o) (List.mem_cons_self _ _)
    have hq1 : st.requests_this_hour < cfg.rate_limit_per_hour := by
      have := hquota
      simp only [List.length_cons] at this
      omega
    have hstep := get_step cfg t st endpoint params o hwin1 hq1
    have hrest := ih (get cfg t st endpoint params o).state
      (hstep.2.1.trans hst)
      (fun q hq => hwin q (List.mem_cons_of_mem _ hq))
      (by
        have h1 := hstep.2.2.2.1
        simp only [List.length_cons] at hquota ⊢
        omega)
    simp only [run_gets]
    refine ⟨hrest.1, ?_, ?_, ?_, ?_⟩
    · exact hstep.2.2.1.trans hrest.2.1
    · have h1 := hrest.2.2.1
      have h2 := hstep.2.2.2.1
      simp only [List.length_cons]
      omega
    · intro r hr
      rcases List.mem_cons.mp hr with rfl | hmem
      · exact ⟨hstep.2.2.2.2.2, get_no_server_rateLimit cfg t st endpoint params o⟩
      · exact hrest.2.2.2.1 r hmem
    · intro hresp
      have h1 := hstep.2.2.2.2.1 (hresp (t, o) (List.mem_cons_self _ _))
      have h2 := hrest.2.2.2.2 (fun q hq => hresp q (List.mem_cons_of_mem _ hq))
      simp only [List.length_cons]
      omega

/-- C2 (amended): from a fresh client, any sequence of at most 5000 `get`
calls whose times stay inside the rolling one-hour window never fails with
`RateLimitExceeded` (local pre-check or server-signalled); and when exactly
5000 of them each received an HTTP response — responses, not transport
failures, are what consume quota — the next call inside the same window
fails with the local `RateLimitExceeded` before issuing the network call. -/
theorem c2_rolling_window (cfg : Config) (endpoint : String) (params : Option Dict)
    (t0 : Nat) (calls : List (Nat × NetOutcome α))
    (hwin : ∀ p ∈ calls, p.1 - t0 < 3600)
    (hlen : calls.length ≤ 5000) :
    (∀ r ∈ (run_gets cfg endpoint params calls ⟨0, t0, false⟩).2,
      ¬isRateLimitFailure r.result) ∧
    (calls.length = 5000 → (∀ p ∈ calls, (p.2 : NetOutcome α).isResponse) →
      ∀ t' (o : NetOutcome α), t' - t0 < 3600 →
        (get cfg t' (run_gets cfg endpoint params calls ⟨0, t0, false⟩).1
          endpoint params o).requestMade = false ∧
        (get cfg t' (run_gets cfg endpoint params calls ⟨0, t0, false⟩).1
          endpoint params o).result =
            Except.error (GetError.rateLimitLocal 5000 5000)) := by
  have hquota : (5000 : Nat) = cfg.rate_limit_per_hour := rfl
  have hmain := run_gets_window cfg endpoint params t0 calls ⟨0, t0, false⟩ rfl hwin
    (by simpa using hlen)
  constructor
  · intro r hr
    have h := hmain.2.2.2.1 r hr
    rintro (⟨c, q, heq⟩ | heq)
    · exact h.1 c q heq
    · exact h.2 heq
  · intro hlen5000 hresp t' o hwin'
    have hcount : (run_gets cfg endpoint params calls ⟨0, t0, false⟩).1.requests_this_hour
        = 5000 := by
      have := hmain.2.2.2.2 hresp
      simpa [hlen5000] using this
    have hstart : (run_gets cfg endpoint params calls ⟨0, t0, false⟩).1.hour_start_time
        = t0 := hmain.1
    have hfail : check_rate_limit cfg t'
        (run_gets cfg endpoint params calls ⟨0, t0, false⟩).1 =
        ({ (run_gets cfg endpoint params calls ⟨0, t0, false⟩).1 with
            is_rate_limited := true },
          some (GetError.rateLimitLocal 5000 5000)) := by
      unfold check_rate_limit
      rw [rollover_eq_self (by rw [hstart]; exact hwin'),
        if_pos (by rw [hcount]; exact Nat.le_refl 5000), hcount]
      exact rfl
    simp only [get, hfail]
    exact ⟨trivial, trivial⟩

theorem run_transport_replicate (cfg : Config) (endpoint : String)
    (params : Option Dict) (m : String) (t0 : Nat) :
    ∀ (n c : Nat) (b : Bool), c < cfg.rate_limit_per_hour →
      (run_gets cfg endpoint params
        (List.replicate n ((t0, NetOutcome.transportError m) : Nat × NetOutcome String))
        ⟨c, t0, b⟩).1 = ⟨c, t0, b⟩ := by
  intro n
  induction n with
  | zero => intro c b _; rfl
  | succ k ih =>
    intro c b h
    rw [List.replicate_succ]
    have hpass : check_rate_limit cfg t0 ⟨c, t0, b⟩ = (⟨c, t0, b⟩, none) :=
      check_rate_limit_pass (by simp) h
    have hst : (get cfg t0 ⟨c, t0, b⟩ endpoint params
        (NetOutcome.transportError m : NetOutcome String)).state = ⟨c, t0, b⟩ := by
      simp [get, hpass]
    simp only [run_gets, hst]
    exact ih c b h

/-- C2 counterexample: the claim's second half fails as stated.  After 5000
in-window attempts that all ended in transport errors (timeouts), the
counter is still 0 — the increment sits after `session.get` — so the
5001st call in the same window sails through the pre-check and succeeds
instead of failing with `RateLimitExceeded`. -/
theorem c2_counterexample :
    (get ⟨"KEY"⟩ 0
        (run_gets ⟨"KEY"⟩ "bill" none
          (List.replicate 5000 ((0, NetOutcome.transportError "timed out") :
            Nat × NetOutcome String)) ⟨0, 0, false⟩).1
        "bill" none (NetOutcome.response 200 (some "B"))).requestMade = true ∧
    (get ⟨"KEY"⟩ 0
        (run_gets ⟨"KEY"⟩ "bill" none
          (List.replicate 5000 ((0, NetOutcome.transportError "timed out") :
            Nat × NetOutcome String)) ⟨0, 0, false⟩).1
        "bill" none (NetOutcome.response 200 (some "B"))).result = Except.ok "B" ∧
    ¬isRateLimitFailure
      (get ⟨"KEY"⟩ 0
        (run_gets ⟨"KEY"⟩ "bill" none
          (List.replicate 5000 ((0, NetOutcome.transportError "timed out") :
            Nat × NetOutcome String)) ⟨0, 0, false⟩).1
        "bill" none (NetOutcome.response 200 (some "B"))).result := by
  rw [run_transport_replicate ⟨"KEY"⟩ "bill" none "timed out" 0 5000 0 false (by decide)]
  refine ⟨rfl, rfl, ?_⟩
  rintro (⟨c, q, h⟩ | h) <;> exact Except.noConfusion h

/-- Witness for the amended C2: 5000 responses at time 0, then a 5001st
call, also at time 0, that is refused before the network call. -/
theorem c2_witness :
    (∀ p ∈ List.replicate 5000 ((0, NetOutcome.response 200 (some "B")) :
        Nat × NetOutcome String), p.1 - 0 < 3600) ∧
    (get ⟨"KEY"⟩ 0
      (run_gets ⟨"KEY"⟩ "bill" none
        (List.replicate 5000 ((0, NetOutcome.response 200 (some "B")) :
          Nat × NetOutcome String)) ⟨0, 0, false⟩).1
      "bill" none (NetOutcome.response 200 (some "B") : NetOutcome String)).requestMade
      = false ∧
    (get ⟨"KEY"⟩ 0
      (run_gets ⟨"KEY"⟩ "bill" none
        (List.replicate 5000 ((0, NetOutcome.response 200 (some "B")) :
          Nat × NetOutcome String)) ⟨0, 0, false⟩).1
      "bill" none (NetOutcome.response 200 (some "B") : NetOutcome String)).result =
      Except.error (GetError.rateLimitLocal 5000 5000) := by
  have hwin : ∀ p ∈ List.replicate 5000 ((0, NetOutcome.response 200 (some "B")) :
      Nat × NetOutcome String), p.1 - 0 < 3600 := by
    intro p hp
    rw [List.eq_of_mem_replicate hp]
    decide
  have h := c2_rolling_window ⟨"KEY"⟩ "bill" none 0
    (List.replicate 5000 ((0, NetOutcome.response 200 (some "B")) :
      Nat × NetOutcome String)) hwin
    (Nat.le_of_eq (List.length_replicate 5000 _))
  have h2 := h.2 (List.length_replicate 5000 _)
    (by
      intro p hp
      rw [List.eq_of_mem_replicate hp]
      exact trivial)
    0 (NetOutcome.response 200 (some "B")) (by decide)
  exact ⟨hwin, h2.1, h2.2⟩

/-! ## C5: the `max_pages` cap of `get_paginated` -/

theorem paginate_loop_bound (cfg : Config) (endpoint : String) (params : Dict)
    (max_pages limit count t0 : Nat) (items : Nat → List α) (statuses : Nat → Nat)
    (oracle : Nat → Nat × NetOutcome (PageResponse α))
    (horacle : ∀ k, oracle k =
      (t0, NetOutcome.response (statuses k) (some ⟨some (items k), some count⟩)))
    (hstat : ∀ k, ¬(400 ≤ statuses k ∧ statuses k < 600))
    (hfull : ∀ k, (items k).length = limit)
    (hlim : 1 ≤ limit) (hmpq : max_pages ≤ cfg.rate_limit_per_hour) :
    ∀ (fuel j offset : Nat) (acc : List α),
      acc.length = j * limit → j < max_pages → max_pages ≤ j + fuel →
      ∃ res : PagResult α,
        get_paginated_loop cfg endpoint params max_pages limit oracle
          fuel offset acc j ⟨j, t0, false⟩ = some res ∧
        res.fetches ≤ max_pages := by
  intro fuel
  induction fuel with
  | zero => intro j offset acc _ hj hmp; omega
  | succ f ih =>
    intro j offset acc hacc hj hmp
    have h429 : statuses j ≠ 429 := fun h => hstat j (h ▸ ⟨by decide, by decide⟩)
    have hq : j < cfg.rate_limit_per_hour := Nat.lt_of_lt_of_le hj hmpq
    have hpass : check_rate_limit cfg t0 ⟨j, t0, false⟩ = (⟨j, t0, false⟩, none) :=
      check_rate_limit_pass (by simp) hq
    simp only [get_paginated_loop, horacle j]
    simp only [get, hpass]
    rw [if_neg (hstat j), if_neg h429]
    dsimp only
    have hlen : (acc ++ items j).length = (j + 1) * limit := by
      rw [List.length_append, hacc, hfull j, Nat.succ_mul]
    by_cases hbreak : offset + limit ≥ count
    · rw [if_pos hbreak]
      exact ⟨_, rfl, Nat.succ_le_of_lt hj⟩
    · rw [if_neg hbreak, if_neg (by omega : ¬limit = 0)]
      have hdiv : (acc ++ items j).length / limit = j + 1 := by
        rw [hlen]
        exact Nat.mul_div_cancel _ (by omega)
      by_cases hcap : (acc ++ items j).length / limit ≥ max_pages
      · rw [if_pos hcap]
        exact ⟨_, rfl, Nat.succ_le_of_lt hj⟩
      · rw [if_neg hcap]
        rw [hdiv] at hcap
        exact ih (j + 1) (offset + limit) (acc ++ items j) hlen (by omega) (by omega)

/-- C5 (amended): whenever `maxPages ≥ 1`, the effective `limit` is at
least 1, and every fetched page answers with the data key holding exactly
`limit` items plus a pagination envelope carrying one consistent `count`
(all inside one rate-limit window, `maxPages` within quota),
`get_paginated` issues at most `maxPages` page fetches.  (The cap compares
`len(all_results) // limit` with `maxPages`, so it only counts *full*
pages: served pages shorter than `limit` can push the number of fetches
past `maxPages`, as the counterexample shows.) -/
theorem c5_max_pages_bound (cfg : Config) (endpoint : String) (params : Dict)
    (max_pages limit count t0 fuel : Nat) (items : Nat → List α)
    (statuses : Nat → Nat) (oracle : Nat → Nat × NetOutcome (PageResponse α))
    (horacle : ∀ k, oracle k =
      (t0, NetOutcome.response (statuses k) (some ⟨some (items k), some count⟩)))
    (hstat : ∀ k, ¬(400 ≤ statuses k ∧ statuses k < 600))
    (hfull : ∀ k, (items k).length = limit)
    (hlimit : effective_limit cfg params = some limit)
    (hlim : 1 ≤ limit) (hmp : 1 ≤ max_pages)
    (hmpq : max_pages ≤ cfg.rate_limit_per_hour) (hfuel : max_pages ≤ fuel) :
    ∃ res : PagResult α,
      get_paginated cfg endpoint (some params) max_pages oracle ⟨0, t0, false⟩ fuel =
        some res ∧
      res.fetches ≤ max_pages := by
  simp only [get_paginated, Option.getD_some, hlimit]
  exact paginate_loop_bound cfg endpoint params max_pages limit count t0 items
    statuses oracle horacle hstat hfull hlim hmpq fuel 0 0 []
    (by simp) hmp (by omega)

/-- C5 counterexample: pages shorter than `limit` defeat the cap.  With
`limit = 1`, `maxPages = 1`, and every page reporting the same `count = 3`
but returning an empty data array, `get_paginated` performs 3 page fetches
— more than `maxPages`. -/
theorem c5_counterexample :
    get_paginated ⟨"KEY"⟩ "bill" (some [("limit", some (Val.nat 1))]) 1
        (fun _ => (0, NetOutcome.response 200
          (some (⟨some [], some 3⟩ : PageResponse Nat)))) ⟨0, 0, false⟩ 5 =
      some ⟨3, ⟨3, 0, false⟩, PagOutcome.combined []⟩ ∧ ¬(3 ≤ 1) :=
  ⟨rfl, by decide⟩

/-- Witness for the amended C5: full pages of the default limit 20, a
consistent count of 100, `maxPages = 1`: at most one fetch happens. -/
theorem c5_witness :
    effective_limit ⟨"KEY"⟩ [] = some 20 ∧
    ∃ res : PagResult Nat,
      get_paginated ⟨"KEY"⟩ "bill" (some []) 1
        (fun _ => (0, NetOutcome.response 200
          (some (⟨some (List.replicate 20 0), some 100⟩ : PageResponse Nat))))
        ⟨0, 0, false⟩ 1 = some res ∧
      res.fetches ≤ 1 := by
  refine ⟨rfl, ?_⟩
  exact c5_max_pages_bound ⟨"KEY"⟩ "bill" [] 1 20 100 0 1
    (fun _ => List.replicate 20 0) (fun _ => 200)
    (fun _ => (0, NetOutcome.response 200
      (some (⟨some (List.replicate 20 0), some 100⟩ : PageResponse Nat))))
    (fun _ => rfl)
    (fun _ => (by decide : ¬(400 ≤ (200 : Nat) ∧ (200 : Nat) < 600)))
    (fun _ => List.length_replicate 20 0)
    rfl (by decide) (by decide) (by decide) (by decide)

end CongressMcp
